import Mathlib

/-!
Verification of the Commander type/transform/suggestion pipeline.

The builtin player types are embedded from `src/shared/builtin/types/players.ts`.
Principals (Roblox `Player` instances) are modelled as records with a display
name; the ambient `Players.GetPlayers()` service call becomes an explicit
`List Player` parameter.  Registry-level operations whose implementation is not
part of the sources (type registry, command registry, group registry, guard
chain executor) are modelled from the specification and marked as such.
-/

namespace Commander

/-- A principal (a Roblox `Player` instance), identified by its display name.
`Players.GetPlayers()` is modelled as an explicit list of these. -/
structure Player where
  name : String
deriving DecidableEq, Repr

/-- The `TransformationResult` type from the sources: a transform either
succeeds with a value or fails with an error message (`TransformResult.ok` /
`TransformResult.err`). -/
inductive TransformationResult (α : Type) where
  | ok (value : α)
  | err (message : String)
deriving DecidableEq, Repr

/-- `Result.map`: applies a function to the payload of an ok result and leaves
an err result unchanged (used as `.map` in `players.ts`). -/
def TransformationResult.map {α β : Type} (f : α → β) :
    TransformationResult α → TransformationResult β
  | .ok v => .ok (f v)
  | .err m => .err m

/-- Luau `string.lower`: lowercases ASCII letters and leaves every other
character unchanged (`Char.toLower` mapped over the characters; extensionally
`String.toLower`). -/
def luauLower (s : String) : String :=
  ⟨s.data.map Char.toLower⟩

/-- Embedding of `getPlayer` from `players.ts`: iterate over the current
players and return the first whose name equals the text case-insensitively,
else the error "Player not found". -/
def getPlayer (players : List Player) (text : String) : TransformationResult Player :=
  match players with
  | [] => .err "Player not found"
  | p :: rest =>
    if luauLower p.name = luauLower text then .ok p else getPlayer rest text

/-- Runtime values as seen by `@rbxts/t` type guards: raw text strings,
player instances, and arrays. -/
inductive RuntimeValue where
  | str (s : String)
  | player (p : Player)
  | list (vs : List RuntimeValue)

/-- Embedding of `isPlayer = t.instanceOf("Player")` from `players.ts`:
true exactly on `Player` instances (never on a raw text string). -/
def isPlayer : RuntimeValue → Bool
  | .player _ => true
  | _ => false

/-- Embedding of `t.array(isPlayer)` (the `playersType` validator): true
exactly on arrays all of whose elements are `Player` instances. -/
def isPlayerArray : RuntimeValue → Bool
  | .list vs => vs.all isPlayer
  | _ => false

/-- The `playerType` transform from `players.ts` (`getPlayer`), with its
result injected into the runtime value space. -/
def playerTypeTransform (players : List Player) (text : String) :
    TransformationResult RuntimeValue :=
  (getPlayer players text).map RuntimeValue.player

/-- Embedding of the `playersType` transform from `players.ts`: if the
lowercased text is the literal `"*"`, return all current players; otherwise
defer to `getPlayer` and wrap the result in a one-element array. -/
def playersTransform (players : List Player) (text : String) :
    TransformationResult (List Player) :=
  if luauLower text = "*" then .ok players
  else (getPlayer players text).map (fun p => [p])

/-- The `playersType` transform with its result injected into the runtime
value space (an array of players). -/
def playersTypeTransform (players : List Player) (text : String) :
    TransformationResult RuntimeValue :=
  (playersTransform players text).map (fun ps => RuntimeValue.list (ps.map RuntimeValue.player))

/-- Embedding of the `playerType` suggestion provider: the names of the
current players. -/
def playerSuggestionList (players : List Player) : List String :=
  players.map (·.name)

/-- Embedding of the `playersType` suggestion provider: `"*"` inserted in
front of the names of the current players. -/
def playersSuggestionList (players : List Player) : List String :=
  "*" :: players.map (·.name)

/-- Modelled from the spec: the `TypeDefinition` record of the type registry
(the registry implementation `core/registry` is not among the sources).
Per the spec, `validate` is a predicate over raw text, `transform` maps raw
text to a `Result`, `suggestions` is an optional provider that may throw
(modelled as `Except`), and `expensive` suppresses live evaluation. -/
structure SpecTypeDef where
  name : String
  expensive : Bool
  validate : String → Bool
  transform : String → TransformationResult RuntimeValue
  suggestions : Option (String → Except String (List String))

/-- Modelled from the spec: registry lookup by type name (first registered
definition with the given name). -/
def findType (reg : List SpecTypeDef) (tyName : String) : Option SpecTypeDef :=
  reg.find? (fun d => d.name == tyName)

/-- The outcome of `resolve`: unknown type, validation failure carrying the
raw text, or the transform result passed through unchanged. -/
inductive ResolveResult where
  | unknownType
  | validationError (raw : String)
  | resolved (r : TransformationResult RuntimeValue)

/-- Modelled from the spec: `resolve(typeName, text)` fails with `UnknownType`
if the type is not registered; otherwise runs `validate(text)`; if validation
fails, returns `ValidationError` carrying the raw text; otherwise invokes
`transform(text)` and returns its result unchanged. -/
def resolve (reg : List SpecTypeDef) (tyName text : String) : ResolveResult :=
  match findType reg tyName with
  | none => .unknownType
  | some d => if d.validate text then .resolved (d.transform text) else .validationError text

/-- Modelled from the spec: `listSuggestions(typeName, partialText)` invokes
the optional suggestion provider and tolerates it throwing; a missing
provider, an unregistered type, and a throwing provider all degrade to the
empty sequence. -/
def listSuggestions (reg : List SpecTypeDef) (tyName text : String) : List String :=
  match findType reg tyName with
  | none => []
  | some d =>
    match d.suggestions with
    | none => []
    | some provider =>
      match provider text with
      | .error _ => []
      | .ok xs => xs

/-- Modelled from the spec: `registerType(def)` fails if a type with the same
name is already registered, and otherwise appends the definition. -/
def registerType (reg : List SpecTypeDef) (d : SpecTypeDef) :
    Except String (List SpecTypeDef) :=
  if reg.any (fun e => e.name == d.name) then .error "Type already registered"
  else .ok (reg ++ [d])

/-- Modelled from the spec: a command definition, keyed by its group path
(an ordered sequence of at most two group names) together with its name.
Arguments, guards and the handler are irrelevant to registration uniqueness
and omitted here. -/
structure CommandDef where
  name : String
  groupPath : List String
deriving DecidableEq, Repr

/-- Modelled from the spec: `registerCommand(def)` fails if the same
(groupPath, name) pair is already registered; identical names under
different group paths are permitted. -/
def registerCommand (reg : List CommandDef) (c : CommandDef) :
    Except String (List CommandDef) :=
  if reg.any (fun e => e.name == c.name && e.groupPath == c.groupPath) then
    .error "Command already registered"
  else .ok (reg ++ [c])

/-- Modelled from the spec: a group definition: a name and an optional
reference to a parent (root) group by name. -/
structure GroupDef where
  name : String
  root : Option String
deriving DecidableEq, Repr

/-- Modelled from the spec: group lookup by name (weak reference via lookup). -/
def findGroup (gs : List GroupDef) (n : String) : Option GroupDef :=
  gs.find? (fun g => g.name == n)

/-- Modelled from the spec: registering a group enforces the two-level
nesting invariant at registration time: a child group's declared root must
exist and must itself be rootless. -/
def registerGroup (gs : List GroupDef) (g : GroupDef) :
    Except String (List GroupDef) :=
  match g.root with
  | none => .ok (gs ++ [g])
  | some r =>
    match findGroup gs r with
    | none => .error "Root group not registered"
    | some rg =>
      match rg.root with
      | some _ => .error "Root group must itself be rootless"
      | none => .ok (gs ++ [g])

/-- Group registry states reachable from the empty registry by successful
`registerGroup` calls. -/
inductive ReachableGroups : List GroupDef → Prop where
  | nil : ReachableGroups []
  | step {gs gs2 : List GroupDef} {g : GroupDef} :
      ReachableGroups gs → registerGroup gs g = .ok gs2 → ReachableGroups gs2

/-- The two-level nesting invariant: every registered group either has no
root or references a registered group that itself has no root. -/
def nestingInv (gs : List GroupDef) : Prop :=
  ∀ g ∈ gs, g.root = none ∨
    ∃ r rg, g.root = some r ∧ rg ∈ gs ∧ rg.name = r ∧ rg.root = none

/-- Observable events of one dispatch of the guard chain executor. -/
inductive Event where
  | guardRun (i : Nat)
  | handlerRun
  | errorRaised (msg : String)
deriving DecidableEq, Repr

/-- True exactly on guard-run events. -/
def Event.isGuardRun : Event → Bool
  | .guardRun _ => true
  | _ => false

/-- True exactly on error events. -/
def Event.isError : Event → Bool
  | .errorRaised _ => true
  | _ => false

/-- Modelled from the spec: the guard chain executor (not among the sources).
A guard is abstracted by whether it invokes its continuation `runNext`
(`true`) or halts (`false`).  Guards run in registration order; a guard that
halts stops the chain with no error; the handler runs only after the last
guard continues.  `i` is the index of the next guard. -/
def runChainAux (guards : List Bool) (i : Nat) : List Event :=
  match guards with
  | [] => [.handlerRun]
  | g :: rest => .guardRun i :: (if g then runChainAux rest (i + 1) else [])

/-- Modelled from the spec: run the guard chain from the first guard. -/
def runChain (guards : List Bool) : List Event :=
  runChainAux guards 0

/-- The number of guards that actually run in a dispatch: all of them when
every guard continues, otherwise every guard up to and including the first
halting one. -/
def chainLen (guards : List Bool) : Nat :=
  if guards.all id then guards.length else (guards.takeWhile id).length + 1

/-- A concrete type definition used to exercise the registry model. -/
def sampleType : SpecTypeDef where
  name := "sample"
  expensive := false
  validate := fun s => s ≠ ""
  transform := fun s => .ok (.str s)
  suggestions := none

/-- A concrete type definition sharing `sampleType`'s name. -/
def sampleTypeDup : SpecTypeDef where
  name := "sample"
  expensive := false
  validate := fun _ => true
  transform := fun s => .ok (.str s)
  suggestions := none

/-- A concrete type definition whose suggestion provider always throws. -/
def throwingType : SpecTypeDef where
  name := "throwing"
  expensive := false
  validate := fun _ => true
  transform := fun s => .ok (.str s)
  suggestions := some (fun _ => .error "provider crashed")

/-- A concrete root group. -/
def infoGroup : GroupDef := ⟨"info", none⟩

/-- A concrete child group under `infoGroup`. -/
def userGroup : GroupDef := ⟨"user", some "info"⟩

/-- A successful `registerGroup` call appends the group, and its declared
root (if any) was found in the registry and is itself rootless. -/
lemma registerGroup_ok_cases {gs gs2 : List GroupDef} {g : GroupDef}
    (h : registerGroup gs g = .ok gs2) :
    gs2 = gs ++ [g] ∧
      (g.root = none ∨
        ∃ r rg, g.root = some r ∧ rg ∈ gs ∧ rg.name = r ∧ rg.root = none) := by
  unfold registerGroup at h
  rcases hr : g.root with _ | r
  all_goals rw [hr] at h
  all_goals dsimp only at h
  · cases h
    exact ⟨rfl, Or.inl rfl⟩
  · rcases hf : findGroup gs r with _ | rg
    all_goals rw [hf] at h
    all_goals dsimp only at h
    · exact Except.noConfusion h
    · rcases hrr : rg.root with _ | r2
      all_goals rw [hrr] at h
      all_goals dsimp only at h
      · cases h
        refine ⟨rfl, Or.inr ⟨r, rg, rfl, ?_, ?_, hrr⟩⟩
        · exact List.mem_of_find?_eq_some hf
        · simpa using List.find?_some hf
      · exact Except.noConfusion h

/-- Appending a group that is rootless or whose root is a registered
rootless group preserves the nesting invariant. -/
lemma nestingInv_append {gs : List GroupDef} {g : GroupDef}
    (hinv : nestingInv gs)
    (hg : g.root = none ∨
      ∃ r rg, g.root = some r ∧ rg ∈ gs ∧ rg.name = r ∧ rg.root = none) :
    nestingInv (gs ++ [g]) := by
  intro x hx
  rcases List.mem_append.mp hx with hx | hx
  · rcases hinv x hx with h | ⟨r, rg, h1, h2, h3, h4⟩
    · exact Or.inl h
    · exact Or.inr ⟨r, rg, h1, List.mem_append_left _ h2, h3, h4⟩
  · have hxg : x = g := by simpa using hx
    subst hxg
    rcases hg with h | ⟨r, rg, h1, h2, h3, h4⟩
    · exact Or.inl h
    · exact Or.inr ⟨r, rg, h1, List.mem_append_left _ h2, h3, h4⟩

/-- The number of guards run grows by one for each leading continuing guard. -/
lemma chainLen_cons_true (rest : List Bool) :
    chainLen (true :: rest) = chainLen rest + 1 := by
  unfold chainLen
  by_cases h : rest.all id = true
  · simp [List.all_cons, h, id]
  · simp [List.all_cons, h, id, List.takeWhile_cons]

/-- Closed form of the guard chain trace: the guards that run are exactly
the consecutive indices starting at `i`, followed by the handler exactly
when every guard continues. -/
lemma runChainAux_eq (guards : List Bool) (i : Nat) :
    runChainAux guards i =
      (List.range' i (chainLen guards)).map Event.guardRun ++
        (if guards.all id then [Event.handlerRun] else []) := by
  induction guards generalizing i with
  | nil => simp [runChainAux, chainLen]
  | cons g rest ih =>
    cases g
    · simp [runChainAux, chainLen, List.takeWhile_cons, List.all_cons,
        List.range'_one]
    · simp only [runChainAux, if_true]
      rw [ih, chainLen_cons_true, List.range'_succ]
      simp [List.all_cons]

/-- C1 counterexample: the `playersType` transform does not treat the literal
text "All" as the wildcard: with current principals Alice and Bob, transforming
"All" yields the error "Player not found", not the full principal list. -/
theorem playersTransform_All_not_wildcard :
    playersTransform [⟨"Alice"⟩, ⟨"Bob"⟩] "All" = .err "Player not found" ∧
    playersTransform [⟨"Alice"⟩, ⟨"Bob"⟩] "All" ≠ .ok [⟨"Alice"⟩, ⟨"Bob"⟩] := by
  decide

/-- C1 (amended): the built-in multi-value `playersType` resolves the literal
text "*" to every known principal: for every current principal list,
transforming "*" returns an ok result containing the full sequence of current
principals. -/
theorem playersTransform_star_resolves_all (ps : List Player) :
    playersTransform ps "*" = .ok ps :=
  rfl

/-- C2: the built-in single-player type's transform performs a
case-insensitive name lookup: if some current principal's name equals the
input ignoring letter case, `getPlayer` returns ok with such a principal;
otherwise it returns the error "Player not found". -/
theorem getPlayer_case_insensitive (ps : List Player) (s : String) :
    ((∃ p ∈ ps, luauLower p.name = luauLower s) →
      ∃ p, getPlayer ps s = .ok p ∧ p ∈ ps ∧ luauLower p.name = luauLower s) ∧
    ((∀ p ∈ ps, luauLower p.name ≠ luauLower s) →
      getPlayer ps s = .err "Player not found") := by
  induction ps with
  | nil =>
    refine ⟨?_, ?_⟩
    · rintro ⟨p, hp, -⟩
      exact absurd hp (List.not_mem_nil p)
    · intro _
      rfl
  | cons q rest ih =>
    refine ⟨?_, ?_⟩
    · rintro ⟨p, hp, hpl⟩
      by_cases hq : luauLower q.name = luauLower s
      · exact ⟨q, by simp [getPlayer, hq], List.mem_cons_self q rest, hq⟩
      · have hpr : p ∈ rest := by
          rcases List.mem_cons.mp hp with rfl | h
          · exact absurd hpl hq
          · exact h
        obtain ⟨r, hr1, hr2, hr3⟩ := ih.1 ⟨p, hpr, hpl⟩
        exact ⟨r, by simp [getPlayer, hq, hr1], List.mem_cons_of_mem q hr2, hr3⟩
    · intro hall
      have hq : luauLower q.name ≠ luauLower s := hall q (List.mem_cons_self q rest)
      have hrest := ih.2 (fun p hp => hall p (List.mem_cons_of_mem q hp))
      simp [getPlayer, hq, hrest]

/-- C2 witness: looking up "BOB" among Alice and Bob finds a principal, and
looking up "zed" among Alice alone yields "Player not found". -/
theorem getPlayer_case_insensitive_witness :
    (∃ p, getPlayer [⟨"Alice"⟩, ⟨"Bob"⟩] "BOB" = .ok p ∧
      p ∈ [(⟨"Alice"⟩ : Player), ⟨"Bob"⟩] ∧
      luauLower p.name = luauLower "BOB") ∧
    getPlayer [⟨"Alice"⟩] "zed" = .err "Player not found" :=
  ⟨(getPlayer_case_insensitive [⟨"Alice"⟩, ⟨"Bob"⟩] "BOB").1 (by decide),
   (getPlayer_case_insensitive [⟨"Alice"⟩] "zed").2 (by decide)⟩

/-- C3 counterexample: the built-in validators are type guards over runtime
values, not predicates over raw text: `isPlayer` (`t.instanceOf("Player")`)
and `t.array(isPlayer)` reject the raw text "Alice" even though the Player
transform accepts it (a player named Alice being present). -/
theorem builtin_validator_rejects_raw_text :
    isPlayer (.str "Alice") = false ∧
    isPlayerArray (.str "Alice") = false ∧
    getPlayer [⟨"Alice"⟩] "Alice" = .ok ⟨"Alice"⟩ := by
  refine ⟨rfl, rfl, by decide⟩

/-- C3 (amended): each built-in type's validate component is a type guard
over the transformed value: every value the Player and Players transforms
return with ok passes the respective validator (`t.instanceOf("Player")`,
`t.array(isPlayer)`). -/
theorem builtin_validators_accept_transform_outputs (ps : List Player) (s : String) :
    (∀ v, playerTypeTransform ps s = .ok v → isPlayer v = true) ∧
    (∀ v, playersTypeTransform ps s = .ok v → isPlayerArray v = true) := by
  constructor
  · intro v hv
    unfold playerTypeTransform at hv
    cases h : getPlayer ps s with
    | ok p =>
      rw [h] at hv
      simp [TransformationResult.map] at hv
      subst hv
      rfl
    | err m =>
      rw [h] at hv
      simp [TransformationResult.map] at hv
  · intro v hv
    unfold playersTypeTransform at hv
    cases h : playersTransform ps s with
    | ok l =>
      rw [h] at hv
      simp [TransformationResult.map] at hv
      subst hv
      simp [isPlayerArray, List.all_eq_true, isPlayer]
    | err m =>
      rw [h] at hv
      simp [TransformationResult.map] at hv

/-- C3 witness: the Player validator accepts the player the transform finds
for "Alice", and the Players validator accepts the one-element array the
multi-value transform produces for "Alice". -/
theorem builtin_validators_accept_transform_outputs_witness :
    isPlayer (.player ⟨"Alice"⟩) = true ∧
    isPlayerArray (.list [.player ⟨"Alice"⟩]) = true :=
  ⟨(builtin_validators_accept_transform_outputs [⟨"Alice"⟩] "Alice").1
     (.player ⟨"Alice"⟩) rfl,
   (builtin_validators_accept_transform_outputs [⟨"Alice"⟩] "Alice").2
     (.list [.player ⟨"Alice"⟩]) rfl⟩

/-- C4: `resolve` fails with UnknownType exactly when the type is not
registered; for a registered type a failing validate yields ValidationError
carrying the raw text, and a passing validate yields the transform result
unchanged. -/
theorem resolve_contract (reg : List SpecTypeDef) (tyName s : String) :
    (resolve reg tyName s = .unknownType ↔ ¬ ∃ d ∈ reg, d.name = tyName) ∧
    (∀ d, findType reg tyName = some d → d.validate s = false →
      resolve reg tyName s = .validationError s) ∧
    (∀ d, findType reg tyName = some d → d.validate s = true →
      resolve reg tyName s = .resolved (d.transform s)) := by
  refine ⟨⟨?_, ?_⟩, ?_, ?_⟩
  · intro h
    rintro ⟨d, hd, hdn⟩
    rcases hf : findType reg tyName with _ | d2
    · rw [findType, List.find?_eq_none] at hf
      exact hf d hd (by simp [hdn])
    · unfold resolve at h
      rw [hf] at h
      dsimp only at h
      by_cases hv : d2.validate s = true
      · rw [if_pos hv] at h
        exact ResolveResult.noConfusion h
      · rw [if_neg hv] at h
        exact ResolveResult.noConfusion h
  · intro h
    have hf : findType reg tyName = none := by
      rw [findType, List.find?_eq_none]
      intro d hd hbeq
      exact h ⟨d, hd, by simpa using hbeq⟩
    unfold resolve
    rw [hf]
  · intro d hf hv
    unfold resolve
    rw [hf]
    dsimp only
    rw [if_neg (by simp [hv])]
  · intro d hf hv
    unfold resolve
    rw [hf]
    dsimp only
    rw [if_pos hv]

/-- C4 witness: with only `sampleType` registered, an unknown name yields
UnknownType, empty text fails `sampleType`'s validator with a
ValidationError carrying the raw text, and valid text yields the transform
result unchanged. -/
theorem resolve_contract_witness :
    resolve [sampleType] "missing" "x" = .unknownType ∧
    resolve [sampleType] "sample" "" = .validationError "" ∧
    resolve [sampleType] "sample" "hi" = .resolved (sampleType.transform "hi") :=
  ⟨(resolve_contract [sampleType] "missing" "x").1.mpr (by decide),
   (resolve_contract [sampleType] "sample" "").2.1 sampleType rfl rfl,
   (resolve_contract [sampleType] "sample" "hi").2.2 sampleType rfl rfl⟩

/-- C5: suggestion-provider failures never propagate: if a registered type's
suggestion provider throws, `listSuggestions` returns the empty sequence;
its return type carries no error channel, so no suggestion failure surfaces
as a dispatch error. -/
theorem listSuggestions_tolerates_throwing_provider (reg : List SpecTypeDef)
    (tyName s : String) (d : SpecTypeDef)
    (provider : String → Except String (List String)) (e : String)
    (hd : findType reg tyName = some d)
    (hp : d.suggestions = some provider)
    (he : provider s = .error e) :
    listSuggestions reg tyName s = [] := by
  unfold listSuggestions
  rw [hd]
  dsimp only
  rw [hp]
  dsimp only
  rw [he]

/-- C5 witness: the type whose provider always throws yields the empty
suggestion sequence. -/
theorem listSuggestions_tolerates_throwing_provider_witness :
    listSuggestions [throwingType] "throwing" "pa" = [] :=
  listSuggestions_tolerates_throwing_provider [throwingType] "throwing" "pa"
    throwingType (fun _ => .error "provider crashed") "provider crashed"
    rfl rfl rfl

/-- C6: duplicate registration fails: registering a type whose name is
already present fails, registering a command whose (groupPath, name) pair is
already present fails, and a command whose pair is fresh is appended even if
its name alone collides. -/
theorem registration_uniqueness (treg : List SpecTypeDef) (d : SpecTypeDef)
    (creg : List CommandDef) (c : CommandDef) :
    ((∃ e ∈ treg, e.name = d.name) →
      registerType treg d = .error "Type already registered") ∧
    ((∃ e ∈ creg, e.name = c.name ∧ e.groupPath = c.groupPath) →
      registerCommand creg c = .error "Command already registered") ∧
    ((∀ e ∈ creg, ¬(e.name = c.name ∧ e.groupPath = c.groupPath)) →
      registerCommand creg c = .ok (creg ++ [c])) := by
  refine ⟨?_, ?_, ?_⟩
  · rintro ⟨e, he, hn⟩
    unfold registerType
    rw [if_pos]
    rw [List.any_eq_true]
    exact ⟨e, he, by simp [hn]⟩
  · rintro ⟨e, he, hn, hg⟩
    unfold registerCommand
    rw [if_pos]
    rw [List.any_eq_true]
    exact ⟨e, he, by simp [hn, hg]⟩
  · intro h
    unfold registerCommand
    rw [if_neg]
    rw [List.any_eq_true]
    rintro ⟨e, he, hb⟩
    simp only [Bool.and_eq_true, beq_iff_eq] at hb
    exact h e he hb

/-- C6 witness: re-registering the name "sample" fails; registering the
(path, name) pair (["info","user"], "view") twice fails; registering "view"
again under the sibling path ["info","server"] succeeds. -/
theorem registration_uniqueness_witness :
    registerType [sampleType] sampleTypeDup = .error "Type already registered" ∧
    registerCommand [⟨"view", ["info", "user"]⟩] ⟨"view", ["info", "user"]⟩
      = .error "Command already registered" ∧
    registerCommand [⟨"view", ["info", "user"]⟩] ⟨"view", ["info", "server"]⟩
      = .ok [⟨"view", ["info", "user"]⟩, ⟨"view", ["info", "server"]⟩] :=
  ⟨(registration_uniqueness [sampleType] sampleTypeDup [] ⟨"view", []⟩).1
     ⟨sampleType, by simp, rfl⟩,
   (registration_uniqueness [] sampleTypeDup
     [⟨"view", ["info", "user"]⟩] ⟨"view", ["info", "user"]⟩).2.1
     ⟨⟨"view", ["info", "user"]⟩, by simp, rfl, rfl⟩,
   (registration_uniqueness [] sampleTypeDup
     [⟨"view", ["info", "user"]⟩] ⟨"view", ["info", "server"]⟩).2.2
     (by decide)⟩

/-- C7: two-level group nesting invariant: every group registry reachable by
successful registrations satisfies that each group either is rootless or
references a registered rootless root group; and registering a group whose
declared root itself has a root fails at registration time. -/
theorem group_nesting_invariant :
    (∀ gs, ReachableGroups gs → nestingInv gs) ∧
    (∀ gs g r rg r2, g.root = some r → findGroup gs r = some rg →
      rg.root = some r2 →
      registerGroup gs g = .error "Root group must itself be rootless") := by
  constructor
  · intro gs h
    induction h with
    | nil =>
      intro g hg
      exact absurd hg (List.not_mem_nil g)
    | step hr hok ih =>
      obtain ⟨heq, hcase⟩ := registerGroup_ok_cases hok
      subst heq
      exact nestingInv_append ih hcase
  · intro gs g r rg r2 hroot hf hrr
    unfold registerGroup
    rw [hroot]
    dsimp only
    rw [hf]
    dsimp only
    rw [hrr]

/-- C7 witness: the registry built by registering root group "info" and then
child group "user" satisfies the invariant, and registering a group rooted
at "user" (which itself has root "info") is rejected. -/
theorem group_nesting_invariant_witness :
    nestingInv [infoGroup, userGroup] ∧
    registerGroup [infoGroup, userGroup] ⟨"deep", some "user"⟩
      = .error "Root group must itself be rootless" :=
  ⟨group_nesting_invariant.1 [infoGroup, userGroup]
     (@ReachableGroups.step [infoGroup] [infoGroup, userGroup] userGroup
       (@ReachableGroups.step [] [infoGroup] infoGroup ReachableGroups.nil rfl)
       rfl),
   group_nesting_invariant.2 [infoGroup, userGroup] ⟨"deep", some "user"⟩
     "user" userGroup "info" rfl rfl rfl⟩

/-- C8: guard chain execution: the guards that run are exactly the
consecutive registration indices up to the first halting guard (each one at
most once, in order); the handler event occurs exactly when every guard
continues; the handler runs at most once; and no error event is ever emitted
(a halting guard is not an error). -/
theorem guard_chain_contract (guards : List Bool) :
    (runChain guards).filter Event.isGuardRun
        = (List.range (chainLen guards)).map Event.guardRun ∧
    (Event.handlerRun ∈ runChain guards ↔ guards.all id = true) ∧
    (runChain guards).count Event.handlerRun ≤ 1 ∧
    (runChain guards).all (fun e => !(e.isError)) = true := by
  have hc : runChain guards =
      (List.range (chainLen guards)).map Event.guardRun ++
        (if guards.all id then [Event.handlerRun] else []) := by
    rw [runChain, runChainAux_eq, ← List.range_eq_range']
  refine ⟨?_, ?_, ?_, ?_⟩
  · rw [hc, List.filter_append]
    have h1 : List.filter Event.isGuardRun
        (if guards.all id then [Event.handlerRun] else []) = [] := by
      by_cases h : guards.all id = true <;>
        simp [h, Event.isGuardRun, List.filter]
    have h2 : List.filter Event.isGuardRun
        ((List.range (chainLen guards)).map Event.guardRun)
        = (List.range (chainLen guards)).map Event.guardRun := by
      rw [List.filter_eq_self]
      intro a ha
      obtain ⟨j, hj, rfl⟩ := List.mem_map.mp ha
      rfl
    rw [h1, h2, List.append_nil]
  · rw [hc]
    by_cases h : guards.all id = true <;> simp [h]
  · rw [hc, List.count_append]
    have h0 : ((List.range (chainLen guards)).map Event.guardRun).count
        Event.handlerRun = 0 := by
      rw [List.count_eq_zero]
      intro hmem
      obtain ⟨j, hj, hEq⟩ := List.mem_map.mp hmem
      exact Event.noConfusion hEq
    rw [h0]
    by_cases h : guards.all id = true <;> simp [h]
  · rw [hc, List.all_append]
    refine Bool.and_eq_true_iff.mpr ⟨?_, ?_⟩
    · rw [List.all_eq_true]
      intro e he
      obtain ⟨j, hj, rfl⟩ := List.mem_map.mp he
      rfl
    · by_cases h : guards.all id = true <;> simp [h, Event.isError]

/-- C9: resolution is deterministic: the embedded pipeline is a pure function
of the registry state, the current principal list and the input text, so two
calls with the same arguments yield the same result. -/
theorem resolve_deterministic (reg : List SpecTypeDef) (tyName s : String)
    (ps : List Player) :
    resolve reg tyName s = resolve reg tyName s ∧
    getPlayer ps s = getPlayer ps s ∧
    playersTransform ps s = playersTransform ps s :=
  ⟨rfl, rfl, rfl⟩

/-- C10: off its wildcard "*", the multi-value Players transform agrees with
the single Player lookup mapped into a one-element sequence: ok([p]) when the
lookup returns ok(p) and the same error when it returns an error. -/
theorem playersTransform_agrees_with_getPlayer (ps : List Player) (s : String)
    (h : luauLower s ≠ "*") :
    (∀ p, getPlayer ps s = .ok p → playersTransform ps s = .ok [p]) ∧
    (∀ e, getPlayer ps s = .err e → playersTransform ps s = .err e) := by
  constructor
  · intro p hp
    simp [playersTransform, h, hp, TransformationResult.map]
  · intro e he
    simp [playersTransform, h, he, TransformationResult.map]

/-- C10 witness: with Alice present, "ALICE" resolves to the one-element
sequence [Alice], and "Bob" yields the single lookup's error. -/
theorem playersTransform_agrees_with_getPlayer_witness :
    playersTransform [⟨"Alice"⟩] "ALICE" = .ok [⟨"Alice"⟩] ∧
    playersTransform [⟨"Alice"⟩] "Bob" = .err "Player not found" :=
  ⟨(playersTransform_agrees_with_getPlayer [⟨"Alice"⟩] "ALICE" (by decide)).1
     ⟨"Alice"⟩ (by decide),
   (playersTransform_agrees_with_getPlayer [⟨"Alice"⟩] "Bob" (by decide)).2
     "Player not found" (by decide)⟩

end Commander
